import Mathlib

/-!
# HarfBuzz bridge (`hindi_harfbuzz_bridge.c`): embedding and verified properties

The bridge forwards calls to the HarfBuzz library and repackages the results.
The library is external, so it is embedded as a `Backend`: a record of the
answers the library gives to the calls the bridge makes.  Every bridge function
returns, next to its C return value, the ordered list of library calls it made
(`HbCall`), so acquisition, release and configuration order are explicit.

Conventions
* a nullable pointer is an `Option`; `none` is `NULL`, `some p` a non-null address `p`;
* a `const char*` that is not `NULL` is the list of bytes before the terminating NUL,
  so `s[0] == 0` holds exactly when the list is empty;
* `int`, `int32_t` are 32-bit two's complement, `unsigned int`, `uint32_t` are 32-bit;
  conversions between them are written out (`toInt32`, `toUInt32`);
* the caller's output array is a map from index to record.
-/

namespace HbHs

/-- A non-null address. -/
abbrev Ptr := Nat

/-- The bytes of a NUL-terminated C string, terminator excluded. -/
abbrev CString := List Nat

/-- Conversion of an unsigned 32-bit value to `int` / `int32_t` (two's complement). -/
def toInt32 (n : Nat) : Int :=
  if n % 2 ^ 32 < 2 ^ 31 then ((n % 2 ^ 32 : Nat) : Int) else ((n % 2 ^ 32 : Nat) : Int) - 2 ^ 32

/-- Conversion of an `int` to `unsigned int` / `uint32_t` (reduction modulo 2^32). -/
def toUInt32 (i : Int) : Nat :=
  (i % 2 ^ 32).toNat

/-- The C struct `HbHsFont`: three nullable library pointers and the units-per-em. -/
structure HbHsFont where
  blob : Option Ptr
  face : Option Ptr
  font : Option Ptr
  upem : Nat
  deriving DecidableEq, Repr

/-- The C struct `HbHsGlyph`, one output record. -/
structure HbHsGlyph where
  glyph_id : Nat
  cluster : Nat
  x_advance : Int
  y_advance : Int
  x_offset : Int
  y_offset : Int
  deriving DecidableEq, Repr

/-- The fields of the library's `hb_glyph_info_t` that the bridge reads. -/
structure HbGlyphInfo where
  codepoint : Nat
  cluster : Nat
  deriving DecidableEq, Repr

/-- The fields of the library's `hb_glyph_position_t` that the bridge reads. -/
structure HbGlyphPosition where
  x_advance : Int
  y_advance : Int
  x_offset : Int
  y_offset : Int
  deriving DecidableEq, Repr

/-- The two values of `hb_direction_t` the bridge uses. -/
inductive HbDirection where
  | HB_DIRECTION_LTR
  | HB_DIRECTION_RTL
  deriving DecidableEq, Repr

/-- One call made by the bridge to the library or to the allocator, with its
arguments and, where the bridge looks at it, its result. -/
inductive HbCall where
  | hb_blob_create_from_file (font_path : CString) (result : Option Ptr)
  | hb_blob_get_length (blob : Ptr) (result : Nat)
  | hb_blob_destroy (blob : Ptr)
  | hb_face_create (blob : Ptr) (index : Nat) (result : Option Ptr)
  | hb_face_destroy (face : Ptr)
  | hb_font_create (face : Ptr) (result : Option Ptr)
  | hb_font_destroy (font : Ptr)
  | hb_ot_font_set_funcs (font : Ptr)
  | hb_face_get_upem (face : Ptr) (result : Nat)
  | hb_font_set_scale (font : Ptr) (x_scale : Int) (y_scale : Int)
  | hb_font_set_ppem (font : Ptr) (x_ppem : Nat) (y_ppem : Nat)
  | malloc (succeeded : Bool)
  | free
  | hb_buffer_create (result : Option Ptr)
  | hb_buffer_add_utf8 (buffer : Ptr) (text : CString) (text_length : Int)
      (item_offset : Nat) (item_length : Int)
  | hb_buffer_set_direction (buffer : Ptr) (direction : HbDirection)
  | hb_script_from_iso15924_tag (tag : Nat) (result : Nat)
  | hb_buffer_set_script (buffer : Ptr) (script : Nat)
  | hb_language_from_string (str : CString) (len : Int) (result : Nat)
  | hb_buffer_set_language (buffer : Ptr) (language : Nat)
  | hb_buffer_guess_segment_properties (buffer : Ptr)
  | hb_shape (font : Ptr) (buffer : Ptr) (features : Option Ptr) (num_features : Nat)
  | hb_buffer_get_glyph_infos (buffer : Ptr) (result : List HbGlyphInfo)
  | hb_buffer_get_glyph_positions (buffer : Ptr) (result : List HbGlyphPosition)
  | hb_buffer_destroy (buffer : Ptr)
  deriving DecidableEq, Repr

/-- The answers of the external library and of the allocator.  The glyph
sequences are lists; the count the library reports with each is its length.
The library documents that `hb_buffer_create` never returns null; the bridge
checks for null all the same, so the field is nullable and the check is kept. -/
structure Backend where
  hb_blob_create_from_file : CString → Option Ptr
  hb_blob_get_length : Ptr → Nat
  hb_face_create : Ptr → Nat → Option Ptr
  hb_font_create : Ptr → Option Ptr
  hb_face_get_upem : Ptr → Nat
  malloc : Bool
  hb_buffer_create : Option Ptr
  hb_script_from_iso15924_tag : Nat → Nat
  hb_language_from_string : CString → Nat
  hb_buffer_get_glyph_infos : Ptr → List HbGlyphInfo
  hb_buffer_get_glyph_positions : Ptr → List HbGlyphPosition

/-- Outcome of `hbhs_create_font_from_file`: the returned handle (`none` is
`NULL`) and the calls made, in order. -/
structure CreateResult where
  ret : Option HbHsFont
  trace : List HbCall
  deriving DecidableEq, Repr

/-- `hbhs_create_font_from_file(font_path, face_index)`. -/
def hbhs_create_font_from_file (be : Backend) (font_path : Option CString) (face_index : Int) :
    CreateResult :=
  match font_path with
  | none => { ret := none, trace := [] }
  | some path =>
    let t := [HbCall.hb_blob_create_from_file path (be.hb_blob_create_from_file path)]
    match be.hb_blob_create_from_file path with
    | none => { ret := none, trace := t }
    | some blob =>
      let t := t ++ [HbCall.hb_blob_get_length blob (be.hb_blob_get_length blob)]
      if be.hb_blob_get_length blob = 0 then
        { ret := none, trace := t ++ [HbCall.hb_blob_destroy blob] }
      else
        let requested_face_index : Nat := if face_index < 0 then 0 else toUInt32 face_index
        let t := t ++ [HbCall.hb_face_create blob requested_face_index
          (be.hb_face_create blob requested_face_index)]
        match be.hb_face_create blob requested_face_index with
        | none => { ret := none, trace := t ++ [HbCall.hb_blob_destroy blob] }
        | some face =>
          let t := t ++ [HbCall.hb_font_create face (be.hb_font_create face)]
          match be.hb_font_create face with
          | none =>
            { ret := none, trace := t ++ [HbCall.hb_face_destroy face, HbCall.hb_blob_destroy blob] }
          | some font =>
            let t := t ++ [HbCall.hb_ot_font_set_funcs font]
            let t := t ++ [HbCall.hb_face_get_upem face (be.hb_face_get_upem face)]
            let upem : Nat := if be.hb_face_get_upem face = 0 then 1000 else be.hb_face_get_upem face
            let t := t ++ [HbCall.hb_font_set_scale font (toInt32 upem) (toInt32 upem)]
            let t := t ++ [HbCall.hb_font_set_ppem font upem upem]
            let t := t ++ [HbCall.malloc be.malloc]
            if be.malloc = false then
              { ret := none,
                trace := t ++ [HbCall.hb_font_destroy font, HbCall.hb_face_destroy face,
                  HbCall.hb_blob_destroy blob] }
            else
              { ret := some { blob := some blob, face := some face, font := some font, upem := upem },
                trace := t }

/-- `hbhs_destroy_font(handle)`: the calls made, in order. -/
def hbhs_destroy_font (handle : Option HbHsFont) : List HbCall :=
  match handle with
  | none => []
  | some h =>
    let t : List HbCall := []
    let t := match h.font with
      | some font => t ++ [HbCall.hb_font_destroy font]
      | none => t
    let t := match h.face with
      | some face => t ++ [HbCall.hb_face_destroy face]
      | none => t
    let t := match h.blob with
      | some blob => t ++ [HbCall.hb_blob_destroy blob]
      | none => t
    t ++ [HbCall.free]

/-- `hbhs_get_upem(handle)`. -/
def hbhs_get_upem (handle : Option HbHsFont) : Int :=
  match handle with
  | none => 0
  | some h => toInt32 h.upem

/-- Outcome of `hbhs_shape`: the C return value, the caller's output array
after the call (`none` when the pointer passed was `NULL`) and the calls made. -/
structure ShapeResult where
  ret : Int
  out_glyphs : Option (Nat → HbHsGlyph)
  trace : List HbCall

/-- The body of the copy loop of `hbhs_shape`: the six field assignments to
`out_glyphs[i]`. -/
def shape_store (glyph_infos : List HbGlyphInfo) (glyph_positions : List HbGlyphPosition)
    (out : Nat → HbHsGlyph) (i : Nat) : Nat → HbHsGlyph :=
  let info := glyph_infos.getD i { codepoint := 0, cluster := 0 }
  let pos := glyph_positions.getD i { x_advance := 0, y_advance := 0, x_offset := 0, y_offset := 0 }
  Function.update out i
    { glyph_id := info.codepoint,
      cluster := info.cluster,
      x_advance := pos.x_advance,
      y_advance := pos.y_advance,
      x_offset := pos.x_offset,
      y_offset := pos.y_offset }

/-- The copy loop of `hbhs_shape`: `for (i = 0; i < out_count; i++)`. -/
def shape_copy (glyph_infos : List HbGlyphInfo) (glyph_positions : List HbGlyphPosition)
    (out_count : Nat) (out : Nat → HbHsGlyph) : Nat → HbHsGlyph :=
  (List.range out_count).foldl (shape_store glyph_infos glyph_positions) out

/-- `hbhs_shape(handle, utf8, language, script_tag, direction, out_glyphs, max_glyphs)`. -/
def hbhs_shape (be : Backend) (handle : Option HbHsFont) (utf8 : Option CString)
    (language : Option CString) (script_tag : Nat) (direction : Int)
    (out_glyphs : Option (Nat → HbHsGlyph)) (max_glyphs : Int) : ShapeResult :=
  match handle.bind (fun h => h.font), utf8, out_glyphs, decide (max_glyphs ≤ 0) with
  | some font, some text, some out, false =>
    match be.hb_buffer_create with
    | none => { ret := 0, out_glyphs := out_glyphs, trace := [HbCall.hb_buffer_create none] }
    | some buffer =>
      let t := [HbCall.hb_buffer_create (some buffer)]
      let t := t ++ [HbCall.hb_buffer_add_utf8 buffer text (-1) 0 (-1)]
      let text_direction :=
        if direction = 1 then HbDirection.HB_DIRECTION_RTL else HbDirection.HB_DIRECTION_LTR
      let t := t ++ [HbCall.hb_buffer_set_direction buffer text_direction]
      let t :=
        if script_tag ≠ 0 then
          let script := be.hb_script_from_iso15924_tag script_tag
          t ++ [HbCall.hb_script_from_iso15924_tag script_tag script,
                HbCall.hb_buffer_set_script buffer script]
        else t
      let t :=
        match language with
        | some (c :: cs) =>
          let lang := be.hb_language_from_string (c :: cs)
          t ++ [HbCall.hb_language_from_string (c :: cs) (-1) lang,
                HbCall.hb_buffer_set_language buffer lang]
        | _ => t
      let t :=
        if script_tag = 0 ∨ language = none ∨ language = some [] then
          t ++ [HbCall.hb_buffer_guess_segment_properties buffer]
        else t
      let t := t ++ [HbCall.hb_shape font buffer none 0]
      let glyph_infos := be.hb_buffer_get_glyph_infos buffer
      let info_count := glyph_infos.length
      let t := t ++ [HbCall.hb_buffer_get_glyph_infos buffer glyph_infos]
      let glyph_positions := be.hb_buffer_get_glyph_positions buffer
      let position_count := glyph_positions.length
      let t := t ++ [HbCall.hb_buffer_get_glyph_positions buffer glyph_positions]
      let glyph_count := if info_count < position_count then info_count else position_count
      let safe_max : Nat := if max_glyphs > 0 then toUInt32 max_glyphs else 0
      let out_count := if glyph_count < safe_max then glyph_count else safe_max
      let out := shape_copy glyph_infos glyph_positions out_count out
      { ret := toInt32 out_count,
        out_glyphs := some out,
        trace := t ++ [HbCall.hb_buffer_destroy buffer] }
  | _, _, _, _ => { ret := 0, out_glyphs := out_glyphs, trace := [] }

/-- The library objects the bridge owns: data blob, face, font instance. -/
inductive Resource where
  | blob (p : Ptr)
  | face (p : Ptr)
  | font (p : Ptr)
  deriving DecidableEq, Repr

/-- The resource a call acquires: a creation call that returned a non-null object. -/
def acquisition : HbCall → Option Resource
  | HbCall.hb_blob_create_from_file _ (some b) => some (Resource.blob b)
  | HbCall.hb_face_create _ _ (some f) => some (Resource.face f)
  | HbCall.hb_font_create _ (some f) => some (Resource.font f)
  | _ => none

/-- The resource a call releases: a destroy call. -/
def release : HbCall → Option Resource
  | HbCall.hb_blob_destroy b => some (Resource.blob b)
  | HbCall.hb_face_destroy f => some (Resource.face f)
  | HbCall.hb_font_destroy f => some (Resource.font f)
  | _ => none

/-- The resources acquired along a trace, in acquisition order. -/
def acquired (t : List HbCall) : List Resource :=
  t.filterMap acquisition

/-- The resources released along a trace, in release order. -/
def released (t : List HbCall) : List Resource :=
  t.filterMap release

/-- A call whose result makes `hbhs_create_font_from_file` give up: a creation
call that returned `NULL`, a blob of length 0, a failed allocation. -/
def failed_step : HbCall → Bool
  | HbCall.hb_blob_create_from_file _ none => true
  | HbCall.hb_blob_get_length _ len => decide (len = 0)
  | HbCall.hb_face_create _ _ none => true
  | HbCall.hb_font_create _ none => true
  | HbCall.malloc succeeded => !succeeded
  | _ => false

/-- The calls with which `hbhs_shape` sets the script: present iff `script_tag != 0`. -/
def script_calls (be : Backend) (buffer : Ptr) (script_tag : Nat) : List HbCall :=
  if script_tag ≠ 0 then
    [HbCall.hb_script_from_iso15924_tag script_tag (be.hb_script_from_iso15924_tag script_tag),
     HbCall.hb_buffer_set_script buffer (be.hb_script_from_iso15924_tag script_tag)]
  else []

/-- The calls with which `hbhs_shape` sets the language. -/
def language_calls (be : Backend) (buffer : Ptr) (language : Option CString) : List HbCall :=
  match language with
  | some (c :: cs) =>
    [HbCall.hb_language_from_string (c :: cs) (-1) (be.hb_language_from_string (c :: cs)),
     HbCall.hb_buffer_set_language buffer (be.hb_language_from_string (c :: cs))]
  | _ => []

/-- The guessing call of `hbhs_shape`. -/
def guess_calls (buffer : Ptr) (language : Option CString) (script_tag : Nat) : List HbCall :=
  if script_tag = 0 ∨ language = none ∨ language = some [] then
    [HbCall.hb_buffer_guess_segment_properties buffer]
  else []

/-- The calls that fix the segment properties of a run, and the shape call. -/
def segment_event : HbCall → Bool
  | HbCall.hb_buffer_set_script _ _ => true
  | HbCall.hb_buffer_set_language _ _ => true
  | HbCall.hb_buffer_guess_segment_properties _ => true
  | HbCall.hb_shape _ _ _ _ => true
  | _ => false

/-- A backend whose face reports `upem` units per em; every other call succeeds. -/
def backend_with_upem (upem : Nat) : Backend where
  hb_blob_create_from_file := fun _ => some 1
  hb_blob_get_length := fun _ => 4
  hb_face_create := fun _ _ => some 2
  hb_font_create := fun _ => some 3
  hb_face_get_upem := fun _ => upem
  malloc := true
  hb_buffer_create := some 4
  hb_script_from_iso15924_tag := fun tag => tag
  hb_language_from_string := fun _ => 7
  hb_buffer_get_glyph_infos := fun _ => []
  hb_buffer_get_glyph_positions := fun _ => []

/-- A backend whose font creation returns `NULL`. -/
def backend_font_fails : Backend :=
  { backend_with_upem 1000 with hb_font_create := fun _ => none }

/-- A backend whose buffer creation returns `buffer` and whose shaping result
is `infos` and `positions`. -/
def backend_shaping (buffer : Option Ptr) (infos : List HbGlyphInfo)
    (positions : List HbGlyphPosition) : Backend :=
  { backend_with_upem 1000 with
    hb_buffer_create := buffer
    hb_buffer_get_glyph_infos := fun _ => infos
    hb_buffer_get_glyph_positions := fun _ => positions }

/-- An output array whose every record is a recognisable filler value. -/
def filled_output : Nat → HbHsGlyph :=
  fun _ =>
    { glyph_id := 9, cluster := 9, x_advance := 9, y_advance := 9, x_offset := 9, y_offset := 9 }

/-- A handle as `hbhs_create_font_from_file` returns it under `backend_with_upem 1000`. -/
def sample_handle : HbHsFont :=
  { blob := some 1, face := some 2, font := some 3, upem := 1000 }

/-- Three glyph infos, as a backend may return them. -/
def sample_infos : List HbGlyphInfo :=
  [{ codepoint := 70, cluster := 0 }, { codepoint := 71, cluster := 1 },
   { codepoint := 72, cluster := 2 }]

/-- Two glyph positions: one fewer than `sample_infos`. -/
def sample_positions : List HbGlyphPosition :=
  [{ x_advance := 600, y_advance := 0, x_offset := 0, y_offset := 0 },
   { x_advance := 610, y_advance := 0, x_offset := 5, y_offset := -3 }]

/-- The calls of a successful `hbhs_create_font_from_file`, in order. -/
def create_success_trace (be : Backend) (path : CString) (index : Nat) (blob face font : Ptr)
    (upem : Nat) : List HbCall :=
  [HbCall.hb_blob_create_from_file path (some blob),
   HbCall.hb_blob_get_length blob (be.hb_blob_get_length blob),
   HbCall.hb_face_create blob index (some face),
   HbCall.hb_font_create face (some font),
   HbCall.hb_ot_font_set_funcs font,
   HbCall.hb_face_get_upem face (be.hb_face_get_upem face),
   HbCall.hb_font_set_scale font (toInt32 upem) (toInt32 upem),
   HbCall.hb_font_set_ppem font upem upem,
   HbCall.malloc true]

/-! ## Auxiliary lemmas -/

theorem toInt32_of_lt {n : Nat} (h : n < 2 ^ 31) : toInt32 n = (n : Int) := by
  have h1 : n % 2 ^ 32 = n := Nat.mod_eq_of_lt (by omega)
  unfold toInt32
  rw [h1, if_pos h]

theorem toUInt32_of_nonneg {i : Int} (h0 : 0 ≤ i) (h1 : i < 2 ^ 32) : toUInt32 i = i.toNat := by
  unfold toUInt32
  rw [Int.emod_eq_of_lt h0 h1]

theorem create_success (be : Backend) (font_path : Option CString) (face_index : Int)
    (h : HbHsFont) (hc : (hbhs_create_font_from_file be font_path face_index).ret = some h) :
    ∃ path blob face font,
      font_path = some path ∧
      be.hb_blob_create_from_file path = some blob ∧
      be.hb_blob_get_length blob ≠ 0 ∧
      be.hb_face_create blob (if face_index < 0 then 0 else toUInt32 face_index) = some face ∧
      be.hb_font_create face = some font ∧
      be.malloc = true ∧
      h = { blob := some blob, face := some face, font := some font,
            upem := if be.hb_face_get_upem face = 0 then 1000 else be.hb_face_get_upem face } ∧
      (hbhs_create_font_from_file be font_path face_index).trace =
        create_success_trace be path (if face_index < 0 then 0 else toUInt32 face_index)
          blob face font h.upem := by
  unfold hbhs_create_font_from_file at hc ⊢
  cases font_path with
  | none => simp at hc
  | some path =>
    simp only at hc ⊢
    cases hb : be.hb_blob_create_from_file path with
    | none => simp [hb] at hc
    | some blob =>
      simp only [hb] at hc ⊢
      by_cases hl : be.hb_blob_get_length blob = 0
      · simp [hl] at hc
      · simp only [hl, if_false] at hc ⊢
        cases hf : be.hb_face_create blob (if face_index < 0 then 0 else toUInt32 face_index) with
        | none => simp [hf] at hc
        | some face =>
          simp only [hf] at hc ⊢
          cases hg : be.hb_font_create face with
          | none => simp [hg] at hc
          | some font =>
            simp only [hg] at hc ⊢
            cases hm : be.malloc with
            | false => simp [hm] at hc
            | true =>
              simp only [hm] at hc ⊢
              simp at hc
              subst hc
              exact ⟨path, blob, face, font, rfl, hb, hl, hf, hg, by simp, rfl,
                by simp [create_success_trace]⟩

theorem create_teardown (be : Backend) (font_path : Option CString) (face_index : Int) :
    ((hbhs_create_font_from_file be font_path face_index).ret = none ↔
      (font_path = none ∨
        ∃ c ∈ (hbhs_create_font_from_file be font_path face_index).trace, failed_step c = true)) ∧
    ((hbhs_create_font_from_file be font_path face_index).ret = none →
      released (hbhs_create_font_from_file be font_path face_index).trace =
        (acquired (hbhs_create_font_from_file be font_path face_index).trace).reverse ∧
      (acquired (hbhs_create_font_from_file be font_path face_index).trace).Nodup ∧
      ∃ t₁ t₂, (hbhs_create_font_from_file be font_path face_index).trace = t₁ ++ t₂ ∧
        released t₁ = [] ∧ acquired t₂ = []) ∧
    (∀ h, (hbhs_create_font_from_file be font_path face_index).ret = some h →
      released (hbhs_create_font_from_file be font_path face_index).trace = [] ∧
      ∃ blob face font,
        acquired (hbhs_create_font_from_file be font_path face_index).trace =
          [Resource.blob blob, Resource.face face, Resource.font font] ∧
        h.blob = some blob ∧ h.face = some face ∧ h.font = some font) := by
  unfold hbhs_create_font_from_file
  cases font_path with
  | none =>
    refine ⟨by simp, fun _ => ⟨by simp [acquired, released], by simp [acquired], ?_⟩, by simp⟩
    exact ⟨[], [], rfl, rfl, rfl⟩
  | some path =>
    simp only
    cases hb : be.hb_blob_create_from_file path with
    | none =>
      refine ⟨by simp [failed_step], fun _ => ⟨by simp [acquired, released, acquisition, release],
  by simp [acquired, acquisition], ?_⟩, by simp⟩
      exact ⟨[HbCall.hb_blob_create_from_file path none], [], by simp, by simp [released, release], by simp [acquired, acquisition]⟩
    | some blob =>
      simp only
      by_cases hl : be.hb_blob_get_length blob = 0
      · simp only [hl, if_true]
        refine ⟨by simp [failed_step], fun _ => ⟨by simp [acquired, released, acquisition, release],
          by simp [acquired, acquisition], ?_⟩, by simp⟩
        exact ⟨[HbCall.hb_blob_create_from_file path (some blob), HbCall.hb_blob_get_length blob 0],
          [HbCall.hb_blob_destroy blob], by simp, by simp [released, release], by simp [acquired, acquisition]⟩
      · simp only [hl, if_false]
        cases hf : be.hb_face_create blob (if face_index < 0 then 0 else toUInt32 face_index) with
        | none =>
          refine ⟨by simp [failed_step], fun _ => ⟨by simp [acquired, released, acquisition, release],
  by simp [acquired, acquisition], ?_⟩, by simp⟩
          exact ⟨[HbCall.hb_blob_create_from_file path (some blob),
            HbCall.hb_blob_get_length blob (be.hb_blob_get_length blob),
            HbCall.hb_face_create blob (if face_index < 0 then 0 else toUInt32 face_index) none],
            [HbCall.hb_blob_destroy blob], by simp, by simp [released, release], by simp [acquired, acquisition]⟩
        | some face =>
          simp only
          cases hg : be.hb_font_create face with
          | none =>
            refine ⟨by simp [failed_step], fun _ => ⟨by simp [acquired, released, acquisition, release],
  by simp [acquired, acquisition], ?_⟩, by simp⟩
            exact ⟨[HbCall.hb_blob_create_from_file path (some blob),
              HbCall.hb_blob_get_length blob (be.hb_blob_get_length blob),
              HbCall.hb_face_create blob (if face_index < 0 then 0 else toUInt32 face_index)
                (some face),
              HbCall.hb_font_create face none],
              [HbCall.hb_face_destroy face, HbCall.hb_blob_destroy blob], by simp, by simp [released, release], by simp [acquired, acquisition]⟩
          | some font =>
            simp only
            cases hm : be.malloc with
            | false =>
              refine ⟨by simp [failed_step], fun _ => ⟨by simp [acquired, released, acquisition, release],
  by simp [acquired, acquisition], ?_⟩, by simp⟩
              exact ⟨[HbCall.hb_blob_create_from_file path (some blob),
                HbCall.hb_blob_get_length blob (be.hb_blob_get_length blob),
                HbCall.hb_face_create blob (if face_index < 0 then 0 else toUInt32 face_index)
                  (some face),
                HbCall.hb_font_create face (some font),
                HbCall.hb_ot_font_set_funcs font,
                HbCall.hb_face_get_upem face (be.hb_face_get_upem face),
                HbCall.hb_font_set_scale font
                  (toInt32 (if be.hb_face_get_upem face = 0 then 1000 else be.hb_face_get_upem face))
                  (toInt32 (if be.hb_face_get_upem face = 0 then 1000 else be.hb_face_get_upem face)),
                HbCall.hb_font_set_ppem font
                  (if be.hb_face_get_upem face = 0 then 1000 else be.hb_face_get_upem face)
                  (if be.hb_face_get_upem face = 0 then 1000 else be.hb_face_get_upem face),
                HbCall.malloc false],
                [HbCall.hb_font_destroy font, HbCall.hb_face_destroy face,
                  HbCall.hb_blob_destroy blob], by simp, by simp [released, release], by simp [acquired, acquisition]⟩
            | true =>
              simp [acquired, released, acquisition, release, failed_step, hl]

theorem shape_guard_fail (be : Backend) (handle : Option HbHsFont) (utf8 : Option CString)
    (language : Option CString) (script_tag : Nat) (direction : Int)
    (out_glyphs : Option (Nat → HbHsGlyph)) (max_glyphs : Int)
    (hg : handle.bind (fun h => h.font) = none ∨ utf8 = none ∨ out_glyphs = none ∨ max_glyphs ≤ 0) :
    hbhs_shape be handle utf8 language script_tag direction out_glyphs max_glyphs =
      { ret := 0, out_glyphs := out_glyphs, trace := [] } := by
  unfold hbhs_shape
  split
  · exfalso
    rcases hg with hg | hg | hg | hg
    · simp_all
    · simp_all
    · simp_all
    · simp_all
  · rfl

theorem shape_no_buffer (be : Backend) (handle : Option HbHsFont) (text : CString)
    (language : Option CString) (script_tag : Nat) (direction : Int)
    (out : Nat → HbHsGlyph) (max_glyphs : Int) (font : Ptr)
    (hf : handle.bind (fun h => h.font) = some font) (hmax : 0 < max_glyphs)
    (hbuf : be.hb_buffer_create = none) :
    hbhs_shape be handle (some text) language script_tag direction (some out) max_glyphs =
      { ret := 0, out_glyphs := some out, trace := [HbCall.hb_buffer_create none] } := by
  have hd : decide (max_glyphs ≤ 0) = false := by simp; omega
  unfold hbhs_shape
  simp only [hf, hd, hbuf]

theorem shape_run (be : Backend) (handle : Option HbHsFont) (text : CString)
    (language : Option CString) (script_tag : Nat) (direction : Int)
    (out : Nat → HbHsGlyph) (max_glyphs : Int) (font buffer : Ptr)
    (hf : handle.bind (fun h => h.font) = some font) (hmax : 0 < max_glyphs)
    (hbuf : be.hb_buffer_create = some buffer) :
    hbhs_shape be handle (some text) language script_tag direction (some out) max_glyphs =
      { ret := toInt32 (min (min (be.hb_buffer_get_glyph_infos buffer).length
            (be.hb_buffer_get_glyph_positions buffer).length) (toUInt32 max_glyphs)),
        out_glyphs := some (shape_copy (be.hb_buffer_get_glyph_infos buffer)
          (be.hb_buffer_get_glyph_positions buffer)
          (min (min (be.hb_buffer_get_glyph_infos buffer).length
            (be.hb_buffer_get_glyph_positions buffer).length) (toUInt32 max_glyphs)) out),
        trace :=
          [HbCall.hb_buffer_create (some buffer),
           HbCall.hb_buffer_add_utf8 buffer text (-1) 0 (-1),
           HbCall.hb_buffer_set_direction buffer
             (if direction = 1 then HbDirection.HB_DIRECTION_RTL else HbDirection.HB_DIRECTION_LTR)]
          ++ script_calls be buffer script_tag
          ++ language_calls be buffer language
          ++ guess_calls buffer language script_tag
          ++ [HbCall.hb_shape font buffer none 0,
              HbCall.hb_buffer_get_glyph_infos buffer (be.hb_buffer_get_glyph_infos buffer),
              HbCall.hb_buffer_get_glyph_positions buffer (be.hb_buffer_get_glyph_positions buffer),
              HbCall.hb_buffer_destroy buffer] } := by
  have hd : decide (max_glyphs ≤ 0) = false := by simp; omega
  have hm1 : ∀ a b : Nat, (if a < b then a else b) = min a b := by
    intro a b; rw [Nat.min_def]; split <;> split <;> omega
  unfold hbhs_shape
  simp only [hf, hd, hbuf, hm1, gt_iff_lt, hmax, if_true]
  unfold script_calls language_calls guess_calls
  by_cases hs : script_tag = 0
  · rcases language with _ | _ | ⟨c, cs⟩ <;> simp [hs]
  · rcases language with _ | _ | ⟨c, cs⟩ <;> simp [hs]

theorem shape_copy_succ (infos : List HbGlyphInfo) (positions : List HbGlyphPosition)
    (n : Nat) (out : Nat → HbHsGlyph) :
    shape_copy infos positions (n + 1) out =
      shape_store infos positions (shape_copy infos positions n out) n := by
  unfold shape_copy
  rw [List.range_succ, List.foldl_append]
  rfl

theorem shape_copy_above (infos : List HbGlyphInfo) (positions : List HbGlyphPosition)
    (n : Nat) (out : Nat → HbHsGlyph) (i : Nat) (hi : n ≤ i) :
    shape_copy infos positions n out i = out i := by
  induction n with
  | zero => rfl
  | succ k ih =>
    rw [shape_copy_succ]
    unfold shape_store
    have hne : i ≠ k := by omega
    simp only [Function.update_noteq hne]
    exact ih (by omega)

theorem shape_copy_below (infos : List HbGlyphInfo) (positions : List HbGlyphPosition)
    (n : Nat) (out : Nat → HbHsGlyph) (i : Nat) (hi : i < n)
    (h1 : i < infos.length) (h2 : i < positions.length) :
    shape_copy infos positions n out i =
      { glyph_id := infos[i].codepoint,
        cluster := infos[i].cluster,
        x_advance := positions[i].x_advance,
        y_advance := positions[i].y_advance,
        x_offset := positions[i].x_offset,
        y_offset := positions[i].y_offset } := by
  induction n with
  | zero => omega
  | succ k ih =>
    rw [shape_copy_succ]
    unfold shape_store
    by_cases hik : i = k
    · subst hik
      simp [List.getElem?_eq_getElem h1, List.getElem?_eq_getElem h2]
    · simp only [Function.update_noteq hik]
      exact ih (by omega)

theorem pair_sublist_append {α : Type} {a b : α} {l₁ l₂ : List α} (ha : a ∈ l₁) (hb : b ∈ l₂) :
    List.Sublist [a, b] (l₁ ++ l₂) := by
  have h1 : List.Sublist [a] l₁ := List.singleton_sublist.mpr ha
  have h2 : List.Sublist [b] l₂ := List.singleton_sublist.mpr hb
  exact List.Sublist.append h1 h2

theorem mem_script_calls (be : Backend) (buffer : Ptr) (script_tag : Nat) (c : HbCall) :
    c ∈ script_calls be buffer script_tag ↔
      script_tag ≠ 0 ∧
      (c = HbCall.hb_script_from_iso15924_tag script_tag (be.hb_script_from_iso15924_tag script_tag) ∨
       c = HbCall.hb_buffer_set_script buffer (be.hb_script_from_iso15924_tag script_tag)) := by
  unfold script_calls
  by_cases hs : script_tag = 0 <;> simp [hs]

theorem mem_language_calls (be : Backend) (buffer : Ptr) (language : Option CString) (c : HbCall) :
    c ∈ language_calls be buffer language ↔
      ∃ str, language = some str ∧ str ≠ [] ∧
        (c = HbCall.hb_language_from_string str (-1) (be.hb_language_from_string str) ∨
         c = HbCall.hb_buffer_set_language buffer (be.hb_language_from_string str)) := by
  unfold language_calls
  rcases language with _ | _ | ⟨c₀, cs⟩ <;> simp

theorem mem_guess_calls (buffer : Ptr) (language : Option CString) (script_tag : Nat) (c : HbCall) :
    c ∈ guess_calls buffer language script_tag ↔
      (script_tag = 0 ∨ language = none ∨ language = some []) ∧
      c = HbCall.hb_buffer_guess_segment_properties buffer := by
  unfold guess_calls
  by_cases hc : script_tag = 0 ∨ language = none ∨ language = some [] <;> simp [hc]

theorem shape_cases (handle : Option HbHsFont) (utf8 : Option CString)
    (out_glyphs : Option (Nat → HbHsGlyph)) (max_glyphs : Int) :
    (handle.bind (fun h => h.font) = none ∨ utf8 = none ∨ out_glyphs = none ∨ max_glyphs ≤ 0) ∨
    ∃ font text out, handle.bind (fun h => h.font) = some font ∧ utf8 = some text ∧
      out_glyphs = some out ∧ 0 < max_glyphs := by
  rcases hf : handle.bind (fun h => h.font) with _ | font
  · exact Or.inl (Or.inl rfl)
  rcases utf8 with _ | text
  · exact Or.inl (Or.inr (Or.inl rfl))
  rcases out_glyphs with _ | out
  · exact Or.inl (Or.inr (Or.inr (Or.inl rfl)))
  by_cases hm : max_glyphs ≤ 0
  · exact Or.inl (Or.inr (Or.inr (Or.inr hm)))
  · exact Or.inr ⟨font, text, out, rfl, rfl, rfl, by omega⟩

/-! ## The claims -/

/-- C1: for every call of `hbhs_shape` that passes the argument guards (non-null
handle with non-null font, non-null text, non-null output buffer,
`max_glyphs > 0`, an `int`) and for every pair of glyph-info and glyph-position
sequences the backend returns for the transient buffer (which the library
always creates: `hb_buffer_create` is documented never to return null), both
sequences are read back, the returned count equals
`min(min(info_count, position_count), max_glyphs)`, and for every `i` below that
count `out_glyphs[i]` holds exactly the `i`-th backend record; the count is 0
when the backend produced no glyph. -/
theorem hbhs_shape_copies_leading_records (be : Backend) (h : HbHsFont) (font : Ptr) (text : CString)
    (language : Option CString) (script_tag : Nat) (direction : Int)
    (out : Nat → HbHsGlyph) (max_glyphs : Int) (buffer : Ptr)
    (infos : List HbGlyphInfo) (positions : List HbGlyphPosition)
    (hfont : h.font = some font) (hpos : 0 < max_glyphs) (hint : max_glyphs < 2 ^ 31)
    (hbuf : be.hb_buffer_create = some buffer)
    (hinfos : be.hb_buffer_get_glyph_infos buffer = infos)
    (hpositions : be.hb_buffer_get_glyph_positions buffer = positions) :
    HbCall.hb_buffer_get_glyph_infos buffer infos ∈
      (hbhs_shape be (some h) (some text) language script_tag direction (some out)
        max_glyphs).trace ∧
    HbCall.hb_buffer_get_glyph_positions buffer positions ∈
      (hbhs_shape be (some h) (some text) language script_tag direction (some out)
        max_glyphs).trace ∧
    (hbhs_shape be (some h) (some text) language script_tag direction (some out) max_glyphs).ret =
      min (min (infos.length : Int) (positions.length : Int)) max_glyphs ∧
    (∃ out',
      (hbhs_shape be (some h) (some text) language script_tag direction (some out)
        max_glyphs).out_glyphs = some out' ∧
      ∀ i : Nat,
        (i : Int) < (hbhs_shape be (some h) (some text) language script_tag direction (some out)
          max_glyphs).ret →
        ∃ info pos, infos[i]? = some info ∧ positions[i]? = some pos ∧
          out' i =
            { glyph_id := info.codepoint,
              cluster := info.cluster,
              x_advance := pos.x_advance,
              y_advance := pos.y_advance,
              x_offset := pos.x_offset,
              y_offset := pos.y_offset }) ∧
    ((infos = [] ∨ positions = []) →
      (hbhs_shape be (some h) (some text) language script_tag direction (some out)
        max_glyphs).ret = 0) := by
  have hf : (some h).bind (fun h => h.font) = some font := hfont
  rw [shape_run be (some h) text language script_tag direction out max_glyphs font buffer hf
    hpos hbuf]
  rw [hinfos, hpositions]
  have hu : toUInt32 max_glyphs = max_glyphs.toNat :=
    toUInt32_of_nonneg (by omega) (by omega)
  have hle : min (min infos.length positions.length) (toUInt32 max_glyphs) ≤
      max_glyphs.toNat := by rw [hu]; exact Nat.min_le_right _ _
  have hlt : min (min infos.length positions.length) (toUInt32 max_glyphs) < 2 ^ 31 := by
    omega
  have hret : toInt32 (min (min infos.length positions.length) (toUInt32 max_glyphs)) =
      min (min (infos.length : Int) (positions.length : Int)) max_glyphs := by
    rw [toInt32_of_lt hlt, hu]
    omega
  refine ⟨by simp, by simp, hret, ⟨_, rfl, ?_⟩, ?_⟩
  · intro i hi
    simp only [hret] at hi
    have h1 : i < infos.length := by omega
    have h2 : i < positions.length := by omega
    refine ⟨infos[i], positions[i], List.getElem?_eq_getElem h1, List.getElem?_eq_getElem h2, ?_⟩
    exact shape_copy_below infos positions _ out i (by omega) h1 h2
  · intro he
    simp only [hret]
    rcases he with he | he <;> simp [he] <;> omega

/-- Witness of C1: three infos and two positions shaped into capacity 5 give
two records, and into capacity 1 give one record. -/
theorem hbhs_shape_copies_leading_records_witness :
    (backend_shaping (some 4) sample_infos sample_positions).hb_buffer_create = some 4 ∧
    (hbhs_shape (backend_shaping (some 4) sample_infos sample_positions) (some sample_handle)
      (some [97, 98, 99]) none 0 0 (some filled_output) 5).ret =
      min (min (sample_infos.length : Int) (sample_positions.length : Int)) 5 ∧
    (hbhs_shape (backend_shaping (some 4) sample_infos sample_positions) (some sample_handle)
      (some [97, 98, 99]) none 0 0 (some filled_output) 1).ret =
      min (min (sample_infos.length : Int) (sample_positions.length : Int)) 1 :=
  ⟨rfl,
   (hbhs_shape_copies_leading_records (backend_shaping (some 4) sample_infos sample_positions)
      sample_handle 3 [97, 98, 99] none 0 0 filled_output 5 4 sample_infos sample_positions
      rfl (by decide) (by decide) rfl rfl rfl).2.2.1,
   (hbhs_shape_copies_leading_records (backend_shaping (some 4) sample_infos sample_positions)
      sample_handle 3 [97, 98, 99] none 0 0 filled_output 1 4 sample_infos sample_positions
      rfl (by decide) (by decide) rfl rfl rfl).2.2.1⟩

/-- C2: when the handle is null, the text is null, the output buffer is null or
`max_glyphs <= 0`, whatever the other arguments, `hbhs_shape` returns 0, makes
no call at all (no transient buffer is created, the font is not used) and
leaves the output buffer as it was. -/
theorem hbhs_shape_rejects_bad_arguments (be : Backend) (handle : Option HbHsFont)
    (utf8 : Option CString) (language : Option CString) (script_tag : Nat) (direction : Int)
    (out_glyphs : Option (Nat → HbHsGlyph)) (max_glyphs : Int)
    (hbad : handle = none ∨ utf8 = none ∨ out_glyphs = none ∨ max_glyphs ≤ 0) :
    (hbhs_shape be handle utf8 language script_tag direction out_glyphs max_glyphs).ret = 0 ∧
    (hbhs_shape be handle utf8 language script_tag direction out_glyphs max_glyphs).trace = [] ∧
    (hbhs_shape be handle utf8 language script_tag direction out_glyphs max_glyphs).out_glyphs =
      out_glyphs := by
  have hg : handle.bind (fun h => h.font) = none ∨ utf8 = none ∨ out_glyphs = none ∨
      max_glyphs ≤ 0 := by
    rcases hbad with h | h | h | h
    · exact Or.inl (by rw [h]; rfl)
    · exact Or.inr (Or.inl h)
    · exact Or.inr (Or.inr (Or.inl h))
    · exact Or.inr (Or.inr (Or.inr h))
  rw [shape_guard_fail be handle utf8 language script_tag direction out_glyphs max_glyphs hg]
  exact ⟨rfl, rfl, rfl⟩

/-- Witness of C2: capacity 0 with an otherwise valid call. -/
theorem hbhs_shape_rejects_bad_arguments_witness :
    ((0 : Int) ≤ 0) ∧
    (hbhs_shape (backend_shaping (some 4) sample_infos sample_positions) (some sample_handle)
      (some [97, 98, 99]) none 0 0 (some filled_output) 0).ret = 0 ∧
    (hbhs_shape (backend_shaping (some 4) sample_infos sample_positions) (some sample_handle)
      (some [97, 98, 99]) none 0 0 (some filled_output) 0).trace = [] :=
  have h := hbhs_shape_rejects_bad_arguments
    (backend_shaping (some 4) sample_infos sample_positions) (some sample_handle)
    (some [97, 98, 99]) none 0 0 (some filled_output) 0 (Or.inr (Or.inr (Or.inr (by decide))))
  ⟨by decide, h.1, h.2.1⟩

/-- C10: for every input of `hbhs_shape` (with `max_glyphs` an `int`) and every
backend result, the returned count `r` satisfies `0 <= r <= max(max_glyphs, 0)`,
and every output record at an index `>= r` has the value it had before the
call, so only records below `r` are written; a null output pointer stays null. -/
theorem hbhs_shape_count_bounds_and_frame (be : Backend) (handle : Option HbHsFont)
    (utf8 : Option CString) (language : Option CString) (script_tag : Nat) (direction : Int)
    (out_glyphs : Option (Nat → HbHsGlyph)) (max_glyphs : Int) (hint : max_glyphs < 2 ^ 31) :
    0 ≤ (hbhs_shape be handle utf8 language script_tag direction out_glyphs max_glyphs).ret ∧
    (hbhs_shape be handle utf8 language script_tag direction out_glyphs max_glyphs).ret ≤
      max max_glyphs 0 ∧
    (out_glyphs = none →
      (hbhs_shape be handle utf8 language script_tag direction out_glyphs max_glyphs).out_glyphs =
        none) ∧
    (∀ out, out_glyphs = some out →
      ∃ out', (hbhs_shape be handle utf8 language script_tag direction out_glyphs
          max_glyphs).out_glyphs = some out' ∧
        ∀ i : Nat,
          (hbhs_shape be handle utf8 language script_tag direction out_glyphs max_glyphs).ret ≤ i →
          out' i = out i) := by
  rcases shape_cases handle utf8 out_glyphs max_glyphs with hg | ⟨font, text, out, hf, ht, ho, hm⟩
  · rw [shape_guard_fail be handle utf8 language script_tag direction out_glyphs max_glyphs hg]
    refine ⟨le_refl _, le_max_right _ _, fun h => h, fun out ho => ⟨out, ho, fun _ _ => rfl⟩⟩
  · subst ht ho
    rcases hb : be.hb_buffer_create with _ | buffer
    · rw [shape_no_buffer be handle text language script_tag direction out max_glyphs font hf hm hb]
      refine ⟨le_refl _, le_max_right _ _, (fun h => by cases h), fun o ho => ?_⟩
      cases ho
      exact ⟨out, rfl, fun _ _ => rfl⟩
    · rw [shape_run be handle text language script_tag direction out max_glyphs font buffer hf hm hb]
      have hu : toUInt32 max_glyphs = max_glyphs.toNat :=
        toUInt32_of_nonneg (by omega) (by omega)
      have hle : min (min (be.hb_buffer_get_glyph_infos buffer).length
          (be.hb_buffer_get_glyph_positions buffer).length) (toUInt32 max_glyphs) ≤
          max_glyphs.toNat := by rw [hu]; exact Nat.min_le_right _ _
      have hlt : min (min (be.hb_buffer_get_glyph_infos buffer).length
          (be.hb_buffer_get_glyph_positions buffer).length) (toUInt32 max_glyphs) < 2 ^ 31 := by
        omega
      simp only [toInt32_of_lt hlt]
      refine ⟨by omega, ?_, (fun h => by cases h), fun o ho => ?_⟩
      · have : max_glyphs ≤ max max_glyphs 0 := le_max_left _ _
        omega
      · cases ho
        refine ⟨_, rfl, fun i hi => ?_⟩
        exact shape_copy_above _ _ _ _ _ (by omega)

/-- Witness of C10: three infos and two positions shaped into capacity 1: one
record is returned and record 1 is untouched. -/
theorem hbhs_shape_count_bounds_and_frame_witness :
    (1 : Int) < 2 ^ 31 ∧
    (hbhs_shape (backend_shaping (some 4) sample_infos sample_positions) (some sample_handle)
      (some [97, 98, 99]) none 0 0 (some filled_output) 1).ret ≤ max 1 0 :=
  ⟨by decide,
   (hbhs_shape_count_bounds_and_frame (backend_shaping (some 4) sample_infos sample_positions)
      (some sample_handle) (some [97, 98, 99]) none 0 0 (some filled_output) 1 (by decide)).2.1⟩

/-- C3 (amended): `hbhs_get_upem` returns 0 for a null handle. For every handle
returned by a successful `hbhs_create_font_from_file`, the stored units-per-em
is the value the face reported when that is non-zero and 1000 when the face
reported 0, so it is never zero; `hbhs_get_upem` returns the stored value
converted to `int`, and when the face reported a value below 2^31 that is the
stored value itself and strictly greater than 0. -/
theorem hbhs_get_upem_after_create :
    hbhs_get_upem none = 0 ∧
    ∀ (be : Backend) (font_path : Option CString) (face_index : Int) (h : HbHsFont),
      (hbhs_create_font_from_file be font_path face_index).ret = some h →
      ∃ face, h.face = some face ∧
        HbCall.hb_face_get_upem face (be.hb_face_get_upem face) ∈
          (hbhs_create_font_from_file be font_path face_index).trace ∧
        (be.hb_face_get_upem face ≠ 0 → h.upem = be.hb_face_get_upem face) ∧
        (be.hb_face_get_upem face = 0 → h.upem = 1000) ∧
        h.upem ≠ 0 ∧
        hbhs_get_upem (some h) = toInt32 h.upem ∧
        (be.hb_face_get_upem face < 2 ^ 31 →
          hbhs_get_upem (some h) = (h.upem : Int) ∧ 0 < hbhs_get_upem (some h)) := by
  refine ⟨rfl, ?_⟩
  intro be font_path face_index h hc
  obtain ⟨path, blob, face, font, -, -, -, -, -, -, hh, ht⟩ :=
    create_success be font_path face_index h hc
  refine ⟨face, by rw [hh], ?_, ?_, ?_, ?_, rfl, ?_⟩
  · rw [ht]; simp [create_success_trace]
  · intro hne; rw [hh]; simp [hne]
  · intro h0; rw [hh]; simp [h0]
  · rw [hh]; simp only; split <;> omega
  · intro hlt
    have hu : h.upem < 2 ^ 31 := by rw [hh]; simp only; split <;> omega
    have hpos : 0 < h.upem := by rw [hh]; simp only; split <;> omega
    have hcast : hbhs_get_upem (some h) = (h.upem : Int) := toInt32_of_lt hu
    exact ⟨hcast, by rw [hcast]; exact_mod_cast hpos⟩

/-- Witness of C3: a face reporting 0 gives a handle whose units-per-em reads 1000. -/
theorem hbhs_get_upem_after_create_witness :
    (hbhs_create_font_from_file (backend_with_upem 0) (some [102]) 0).ret =
      some { blob := some 1, face := some 2, font := some 3, upem := 1000 } ∧
    hbhs_get_upem (some { blob := some 1, face := some 2, font := some 3, upem := 1000 }) = 1000 ∧
    (0 : Int) < hbhs_get_upem (some { blob := some 1, face := some 2, font := some 3, upem := 1000 }) := by
  have hc : (hbhs_create_font_from_file (backend_with_upem 0) (some [102]) 0).ret =
      some { blob := some 1, face := some 2, font := some 3, upem := 1000 } := by decide
  obtain ⟨face, -, -, -, -, -, -, hlt⟩ :=
    hbhs_get_upem_after_create.2 (backend_with_upem 0) (some [102]) 0 _ hc
  have h31 : (backend_with_upem 0).hb_face_get_upem face < 2 ^ 31 := by
    show 0 < 2 ^ 31
    norm_num
  exact ⟨hc, (hlt h31).1, (hlt h31).2⟩

/-- Counterexample to C3 as stated: a face reporting 2^31 units per em gives a
successfully created handle on which `hbhs_get_upem` returns -2^31, not a
value greater than 0 and not the stored value. -/
theorem hbhs_get_upem_not_positive :
    (hbhs_create_font_from_file (backend_with_upem 2147483648) (some [102]) 0).ret =
      some { blob := some 1, face := some 2, font := some 3, upem := 2147483648 } ∧
    hbhs_get_upem (some { blob := some 1, face := some 2, font := some 3, upem := 2147483648 })
      = -2147483648 ∧
    ¬ (0 < hbhs_get_upem
      (some { blob := some 1, face := some 2, font := some 3, upem := 2147483648 })) := by
  decide

/-- C5 (amended): for every successful `hbhs_create_font_from_file` the font
instance's ppem is set once, to (units-per-em, units-per-em), and its scale is
set once, to the stored units-per-em converted to `int32_t` on both axes, where
units-per-em is the value stored in the handle (the face's reported value, or
1000 when it reports 0); when the stored value is below 2^31 the scale
arguments equal the stored units-per-em. -/
theorem create_sets_scale_and_ppem (be : Backend) (font_path : Option CString) (face_index : Int)
    (h : HbHsFont) (hc : (hbhs_create_font_from_file be font_path face_index).ret = some h) :
    ∃ face font, h.face = some face ∧ h.font = some font ∧
      h.upem = (if be.hb_face_get_upem face = 0 then 1000 else be.hb_face_get_upem face) ∧
      (∀ f x y, HbCall.hb_font_set_ppem f x y ∈
          (hbhs_create_font_from_file be font_path face_index).trace ↔
        (f = font ∧ x = h.upem ∧ y = h.upem)) ∧
      (∀ f x y, HbCall.hb_font_set_scale f x y ∈
          (hbhs_create_font_from_file be font_path face_index).trace ↔
        (f = font ∧ x = toInt32 h.upem ∧ y = toInt32 h.upem)) ∧
      (h.upem < 2 ^ 31 →
        HbCall.hb_font_set_scale font (h.upem : Int) (h.upem : Int) ∈
          (hbhs_create_font_from_file be font_path face_index).trace) := by
  obtain ⟨path, blob, face, font, -, -, -, -, -, -, hh, ht⟩ :=
    create_success be font_path face_index h hc
  refine ⟨face, font, by rw [hh], by rw [hh], by rw [hh], ?_, ?_, ?_⟩
  · intro f x y; rw [ht]; simp [create_success_trace]
  · intro f x y; rw [ht]; simp [create_success_trace]
  · intro hlt; rw [ht, ← toInt32_of_lt hlt]; simp [create_success_trace]

/-- Witness of C5: a face reporting 2048 units per em. -/
theorem create_sets_scale_and_ppem_witness :
    (hbhs_create_font_from_file (backend_with_upem 2048) (some [102]) 0).ret =
      some { blob := some 1, face := some 2, font := some 3, upem := 2048 } ∧
    HbCall.hb_font_set_scale 3 2048 2048 ∈
      (hbhs_create_font_from_file (backend_with_upem 2048) (some [102]) 0).trace ∧
    HbCall.hb_font_set_ppem 3 2048 2048 ∈
      (hbhs_create_font_from_file (backend_with_upem 2048) (some [102]) 0).trace := by
  have hc : (hbhs_create_font_from_file (backend_with_upem 2048) (some [102]) 0).ret =
      some { blob := some 1, face := some 2, font := some 3, upem := 2048 } := by decide
  obtain ⟨face, font, -, hfont, -, hppem, -, hscale⟩ :=
    create_sets_scale_and_ppem (backend_with_upem 2048) (some [102]) 0 _ hc
  have hf : font = 3 := by simpa using hfont.symm
  subst hf
  exact ⟨hc, hscale (by decide), (hppem 3 2048 2048).2 ⟨rfl, rfl, rfl⟩⟩

/-- Counterexample to C5 as stated: a face reporting 2^31 units per em gives a
successful creation whose scale call receives -2^31 on both axes, while the
stored units-per-em is 2^31. -/
theorem create_scale_differs_from_upem :
    (hbhs_create_font_from_file (backend_with_upem 2147483648) (some [102]) 0).ret =
      some { blob := some 1, face := some 2, font := some 3, upem := 2147483648 } ∧
    HbCall.hb_font_set_scale 3 (-2147483648) (-2147483648) ∈
      (hbhs_create_font_from_file (backend_with_upem 2147483648) (some [102]) 0).trace ∧
    HbCall.hb_font_set_scale 3 2147483648 2147483648 ∉
      (hbhs_create_font_from_file (backend_with_upem 2147483648) (some [102]) 0).trace := by
  decide

/-- C4: `hbhs_create_font_from_file` returns null exactly when the path is null
or one of its steps fails (blob load returns null, blob of length 0, face
creation returns null, font creation returns null, handle allocation fails).
Whenever it returns null, the resources released along the call are exactly the
resources acquired, in the reverse of their acquisition order, each released
exactly once and only after the last acquisition. On success nothing is
released and the returned handle holds exactly the blob, face and font that
were acquired, all non-null. -/
theorem create_failure_releases_in_reverse (be : Backend) (font_path : Option CString)
    (face_index : Int) :
    ((hbhs_create_font_from_file be font_path face_index).ret = none ↔
      (font_path = none ∨
        ∃ c ∈ (hbhs_create_font_from_file be font_path face_index).trace, failed_step c = true)) ∧
    ((hbhs_create_font_from_file be font_path face_index).ret = none →
      released (hbhs_create_font_from_file be font_path face_index).trace =
        (acquired (hbhs_create_font_from_file be font_path face_index).trace).reverse ∧
      (∀ x ∈ acquired (hbhs_create_font_from_file be font_path face_index).trace,
        (released (hbhs_create_font_from_file be font_path face_index).trace).count x = 1) ∧
      ∃ t₁ t₂, (hbhs_create_font_from_file be font_path face_index).trace = t₁ ++ t₂ ∧
        released t₁ = [] ∧ acquired t₂ = []) ∧
    (∀ h, (hbhs_create_font_from_file be font_path face_index).ret = some h →
      released (hbhs_create_font_from_file be font_path face_index).trace = [] ∧
      ∃ blob face font,
        acquired (hbhs_create_font_from_file be font_path face_index).trace =
          [Resource.blob blob, Resource.face face, Resource.font font] ∧
        h.blob = some blob ∧ h.face = some face ∧ h.font = some font) := by
  obtain ⟨h1, h2, h3⟩ := create_teardown be font_path face_index
  refine ⟨h1, fun hn => ?_, h3⟩
  obtain ⟨hrev, hnd, hsplit⟩ := h2 hn
  refine ⟨hrev, fun x hx => ?_, hsplit⟩
  rw [hrev, List.count_reverse]
  exact List.count_eq_one_of_mem hnd hx

/-- Witness of C4: font creation fails after blob and face were acquired; the
face is released first, then the blob. -/
theorem create_failure_releases_in_reverse_witness :
    (hbhs_create_font_from_file backend_font_fails (some [102]) 0).ret = none ∧
    acquired (hbhs_create_font_from_file backend_font_fails (some [102]) 0).trace =
      [Resource.blob 1, Resource.face 2] ∧
    released (hbhs_create_font_from_file backend_font_fails (some [102]) 0).trace =
      (acquired (hbhs_create_font_from_file backend_font_fails (some [102]) 0).trace).reverse :=
  ⟨by decide, by decide,
    ((create_failure_releases_in_reverse backend_font_fails (some [102]) 0).2.1 (by decide)).1⟩

/-- C7: `hbhs_destroy_font` on a null handle makes no call at all; on a handle
whose font, face and blob are all non-null it destroys the font instance, then
the face, then the blob, each exactly once, and then frees the handle record;
every handle returned by `hbhs_create_font_from_file` is such a handle, and
what is destroyed is what creation acquired. -/
theorem hbhs_destroy_font_order :
    hbhs_destroy_font none = [] ∧
    (∀ (h : HbHsFont) (font face blob : Ptr),
      h.font = some font → h.face = some face → h.blob = some blob →
      hbhs_destroy_font (some h) =
        [HbCall.hb_font_destroy font, HbCall.hb_face_destroy face, HbCall.hb_blob_destroy blob,
         HbCall.free]) ∧
    (∀ (be : Backend) (font_path : Option CString) (face_index : Int) (h : HbHsFont),
      (hbhs_create_font_from_file be font_path face_index).ret = some h →
      ∃ blob face font,
        acquired (hbhs_create_font_from_file be font_path face_index).trace =
          [Resource.blob blob, Resource.face face, Resource.font font] ∧
        hbhs_destroy_font (some h) =
          [HbCall.hb_font_destroy font, HbCall.hb_face_destroy face, HbCall.hb_blob_destroy blob,
           HbCall.free]) := by
  refine ⟨rfl, ?_, ?_⟩
  · intro h font face blob hf hc hb
    simp [hbhs_destroy_font, hf, hc, hb]
  · intro be font_path face_index h hc
    obtain ⟨-, blob, face, font, hacq, hb, hfa, hfo⟩ :=
      (create_teardown be font_path face_index).2.2 h hc
    exact ⟨blob, face, font, hacq, by simp [hbhs_destroy_font, hfo, hfa, hb]⟩

/-- Witness of C7: a handle holding blob 1, face 2 and font 3. -/
theorem hbhs_destroy_font_order_witness :
    hbhs_destroy_font (some { blob := some 1, face := some 2, font := some 3, upem := 1000 }) =
      [HbCall.hb_font_destroy 3, HbCall.hb_face_destroy 2, HbCall.hb_blob_destroy 1,
       HbCall.free] :=
  hbhs_destroy_font_order.2.1 { blob := some 1, face := some 2, font := some 3, upem := 1000 }
    3 2 1 rfl rfl rfl

/-- C8: when the file loads to a non-empty blob, `hbhs_create_font_from_file`
parses the face exactly once, from that blob, at index 0 when `face_index` is
negative (any negative value) and at `face_index` itself when it is
non-negative. -/
theorem create_face_index_normalized (be : Backend) (path : CString) (face_index : Int)
    (blob : Ptr) (hint : face_index < 2 ^ 31)
    (hb : be.hb_blob_create_from_file path = some blob)
    (hl : be.hb_blob_get_length blob ≠ 0) :
    ((hbhs_create_font_from_file be (some path) face_index).trace.filter
        (fun c => match c with
          | HbCall.hb_face_create _ _ _ => true
          | _ => false)).length = 1 ∧
    ∀ b i r, HbCall.hb_face_create b i r ∈
        (hbhs_create_font_from_file be (some path) face_index).trace →
      b = blob ∧ r = be.hb_face_create blob i ∧
      (face_index < 0 → i = 0) ∧ (0 ≤ face_index → (i : Int) = face_index) := by
  have hidx : ∀ i : Nat, i = (if face_index < 0 then 0 else toUInt32 face_index) →
      (face_index < 0 → i = 0) ∧ (0 ≤ face_index → (i : Int) = face_index) := by
    intro i hi
    constructor
    · intro hneg; rw [hi, if_pos hneg]
    · intro hpos
      rw [hi, if_neg (by omega), toUInt32_of_nonneg hpos (by omega)]
      exact Int.toNat_of_nonneg hpos
  unfold hbhs_create_font_from_file
  simp only [hb, hl, if_false]
  cases hf : be.hb_face_create blob (if face_index < 0 then 0 else toUInt32 face_index) with
  | none =>
    refine ⟨by simp [List.filter], ?_⟩
    intro b i r hm
    simp at hm
    obtain ⟨h1, h2, h3⟩ := hm
    subst h1
    exact ⟨rfl, by rw [h3, h2, hf], hidx i h2⟩
  | some face =>
    simp only
    cases hg : be.hb_font_create face with
    | none =>
      refine ⟨by simp [List.filter], ?_⟩
      intro b i r hm
      simp at hm
      obtain ⟨h1, h2, h3⟩ := hm
      subst h1
      exact ⟨rfl, by rw [h3, h2, hf], hidx i h2⟩
    | some font =>
      simp only
      cases hm : be.malloc with
      | false =>
        refine ⟨by simp [List.filter], ?_⟩
        intro b i r hm
        simp at hm
        obtain ⟨h1, h2, h3⟩ := hm
        subst h1
        exact ⟨rfl, by rw [h3, h2, hf], hidx i h2⟩
      | true =>
        refine ⟨by simp [List.filter], ?_⟩
        intro b i r hm
        simp at hm
        obtain ⟨h1, h2, h3⟩ := hm
        subst h1
        exact ⟨rfl, by rw [h3, h2, hf], hidx i h2⟩

/-- Witness of C8: face index -7 is parsed as index 0, face index 5 as index 5. -/
theorem create_face_index_normalized_witness :
    (∀ b i r, HbCall.hb_face_create b i r ∈
        (hbhs_create_font_from_file (backend_with_upem 1000) (some [102]) (-7)).trace → i = 0) ∧
    (∀ b i r, HbCall.hb_face_create b i r ∈
        (hbhs_create_font_from_file (backend_with_upem 1000) (some [102]) 5).trace →
      (i : Int) = 5) :=
  ⟨fun b i r hm =>
    ((create_face_index_normalized (backend_with_upem 1000) [102] (-7) 1 (by decide) rfl
      (by decide)).2 b i r hm).2.2.1 (by decide),
   fun b i r hm =>
    ((create_face_index_normalized (backend_with_upem 1000) [102] 5 1 (by decide) rfl
      (by decide)).2 b i r hm).2.2.2 (by decide)⟩

/-- C6: for every call of `hbhs_shape` whatsoever, segment-property guessing is
never invoked when both a non-zero script tag and a non-empty language were
supplied, a script is set only if `script_tag != 0` and a language only if the
language is non-null and non-empty. For every call that passes the argument
guards (the transient buffer being created, as the library guarantees:
`hb_buffer_create` is documented never to return null), guessing is invoked if
and only if `script_tag == 0`, or the language is null, or the language is the
empty string; the script is set explicitly iff `script_tag != 0` and the
language iff it is non-null and non-empty. The script setting, the language
setting, the guessing call and the shape call each occur at most once and in
this order: the trace restricted to these four kinds of call is exactly the
script setting (when present), the language setting (when present), the
guessing call (when present) and the shape call. -/
theorem hbhs_shape_guesses_iff_unspecified :
    (∀ (be : Backend) (handle : Option HbHsFont) (utf8 language : Option CString)
        (script_tag : Nat) (direction : Int) (out_glyphs : Option (Nat → HbHsGlyph))
        (max_glyphs : Int),
      (script_tag ≠ 0 → (∃ str, language = some str ∧ str ≠ []) →
        ∀ b, HbCall.hb_buffer_guess_segment_properties b ∉
          (hbhs_shape be handle utf8 language script_tag direction out_glyphs
            max_glyphs).trace) ∧
      ((∃ b s, HbCall.hb_buffer_set_script b s ∈
          (hbhs_shape be handle utf8 language script_tag direction out_glyphs
            max_glyphs).trace) →
        script_tag ≠ 0) ∧
      ((∃ b l, HbCall.hb_buffer_set_language b l ∈
          (hbhs_shape be handle utf8 language script_tag direction out_glyphs
            max_glyphs).trace) →
        ∃ str, language = some str ∧ str ≠ [])) ∧
    (∀ (be : Backend) (h : HbHsFont) (font : Ptr) (text : CString) (language : Option CString)
        (script_tag : Nat) (direction : Int) (out : Nat → HbHsGlyph) (max_glyphs : Int)
        (buffer : Ptr),
      h.font = some font → 0 < max_glyphs → be.hb_buffer_create = some buffer →
      ((∃ b, HbCall.hb_buffer_guess_segment_properties b ∈
          (hbhs_shape be (some h) (some text) language script_tag direction (some out)
            max_glyphs).trace) ↔
        (script_tag = 0 ∨ language = none ∨ language = some [])) ∧
      ((∃ b s, HbCall.hb_buffer_set_script b s ∈
          (hbhs_shape be (some h) (some text) language script_tag direction (some out)
            max_glyphs).trace) ↔
        script_tag ≠ 0) ∧
      ((∃ b l, HbCall.hb_buffer_set_language b l ∈
          (hbhs_shape be (some h) (some text) language script_tag direction (some out)
            max_glyphs).trace) ↔
        (∃ str, language = some str ∧ str ≠ [])) ∧
      (hbhs_shape be (some h) (some text) language script_tag direction (some out)
          max_glyphs).trace.filter segment_event =
        (if script_tag ≠ 0 then
          [HbCall.hb_buffer_set_script buffer (be.hb_script_from_iso15924_tag script_tag)]
         else []) ++
        (match language with
          | some (c :: cs) =>
            [HbCall.hb_buffer_set_language buffer (be.hb_language_from_string (c :: cs))]
          | _ => []) ++
        (if script_tag = 0 ∨ language = none ∨ language = some [] then
          [HbCall.hb_buffer_guess_segment_properties buffer]
         else []) ++
        [HbCall.hb_shape font buffer none 0]) := by
  constructor
  · intro be handle utf8 language script_tag direction out_glyphs max_glyphs
    rcases shape_cases handle utf8 out_glyphs max_glyphs with
      hg | ⟨font, text, out, hf, ht, ho, hm⟩
    · rw [shape_guard_fail be handle utf8 language script_tag direction out_glyphs max_glyphs hg]
      simp
    · subst ht ho
      rcases hb : be.hb_buffer_create with _ | buffer
      · rw [shape_no_buffer be handle text language script_tag direction out max_glyphs font hf
          hm hb]
        simp
      · rw [shape_run be handle text language script_tag direction out max_glyphs font buffer hf
          hm hb]
        simp only [List.mem_append, mem_script_calls, mem_language_calls, mem_guess_calls]
        refine ⟨?_, ?_, ?_⟩
        · rintro hs ⟨str, hl, hne⟩ b
          subst hl
          simp [hs, hne]
        · simp
        · simp only [reduceCtorEq, List.mem_cons, List.mem_singleton, List.not_mem_nil, false_or,
            or_false, false_and, and_false, HbCall.hb_buffer_set_language.injEq, ne_eq]
          rintro ⟨b, l, str, h1, h2, -⟩
          exact ⟨str, h1, h2⟩
  · intro be h font text language script_tag direction out max_glyphs buffer hfont hpos hbuf
    have hf : (some h).bind (fun h => h.font) = some font := hfont
    rw [shape_run be (some h) text language script_tag direction out max_glyphs font buffer hf
      hpos hbuf]
    simp only
    refine ⟨?_, ?_, ?_, ?_⟩
    · simp only [List.mem_append, mem_script_calls, mem_language_calls, mem_guess_calls]
      simp
    · simp only [List.mem_append, mem_script_calls, mem_language_calls, mem_guess_calls]
      simp
    · simp only [List.mem_append, mem_script_calls, mem_language_calls, mem_guess_calls]
      simp only [reduceCtorEq, List.mem_cons, List.mem_singleton, List.not_mem_nil, false_or,
        or_false, false_and, and_false, HbCall.hb_buffer_set_language.injEq, ne_eq]
      constructor
      · rintro ⟨b, l, str, h1, h2, -⟩
        exact ⟨str, h1, h2⟩
      · rintro ⟨str, h1, h2⟩
        exact ⟨buffer, be.hb_language_from_string str, str, h1, h2, rfl, rfl⟩
    · unfold script_calls language_calls guess_calls
      by_cases hs : script_tag = 0
      · rcases language with _ | _ | ⟨c, cs⟩ <;> simp [hs, List.filter, segment_event]
      · rcases language with _ | _ | ⟨c, cs⟩ <;> simp [hs, List.filter, segment_event]

/-- Witness of C6: script tag `Deva` with a null language: the script is set,
guessing follows it and the shape call comes last. -/
theorem hbhs_shape_guesses_iff_unspecified_witness :
    (backend_shaping (some 4) sample_infos sample_positions).hb_buffer_create = some 4 ∧
    (hbhs_shape (backend_shaping (some 4) sample_infos sample_positions) (some sample_handle)
        (some [97, 98, 99]) none 1147500129 0 (some filled_output) 5).trace.filter
        segment_event =
      [HbCall.hb_buffer_set_script 4 1147500129, HbCall.hb_buffer_guess_segment_properties 4,
       HbCall.hb_shape 3 4 none 0] :=
  ⟨rfl,
   (hbhs_shape_guesses_iff_unspecified.2
      (backend_shaping (some 4) sample_infos sample_positions) sample_handle 3 [97, 98, 99] none
      1147500129 0 filled_output 5 4 rfl (by decide) rfl).2.2.2⟩

/-- C9: for every call of `hbhs_shape` that passes the argument guards (the
transient buffer being created, as the library guarantees: `hb_buffer_create`
is documented never to return null), the direction is set exactly once,
whatever script and language are, and before the shape call: to right-to-left
when `direction == 1`, and to left-to-right when `direction == 0` and for every
other integer value, which is not rejected. -/
theorem hbhs_shape_sets_direction (be : Backend) (h : HbHsFont) (font : Ptr)
    (text : CString) (language : Option CString) (script_tag : Nat) (direction : Int)
    (out : Nat → HbHsGlyph) (max_glyphs : Int) (buffer : Ptr)
    (hfont : h.font = some font) (hpos : 0 < max_glyphs)
    (hbuf : be.hb_buffer_create = some buffer) :
    (∀ b d, HbCall.hb_buffer_set_direction b d ∈
        (hbhs_shape be (some h) (some text) language script_tag direction (some out)
          max_glyphs).trace ↔
      (b = buffer ∧
        d = if direction = 1 then HbDirection.HB_DIRECTION_RTL
            else HbDirection.HB_DIRECTION_LTR)) ∧
    ((hbhs_shape be (some h) (some text) language script_tag direction (some out)
        max_glyphs).trace.filter
      (fun c => match c with
        | HbCall.hb_buffer_set_direction _ _ => true
        | _ => false)).length = 1 ∧
    (direction = 1 →
      List.Sublist
        [HbCall.hb_buffer_set_direction buffer HbDirection.HB_DIRECTION_RTL,
         HbCall.hb_shape font buffer none 0]
        (hbhs_shape be (some h) (some text) language script_tag direction (some out)
          max_glyphs).trace) ∧
    (direction ≠ 1 →
      List.Sublist
        [HbCall.hb_buffer_set_direction buffer HbDirection.HB_DIRECTION_LTR,
         HbCall.hb_shape font buffer none 0]
        (hbhs_shape be (some h) (some text) language script_tag direction (some out)
          max_glyphs).trace) := by
  have hf : (some h).bind (fun h => h.font) = some font := hfont
  rw [shape_run be (some h) text language script_tag direction out max_glyphs font buffer hf
    hpos hbuf]
  simp only
  refine ⟨?_, ?_, ?_, ?_⟩
  · intro b d
    simp only [List.mem_append, mem_script_calls, mem_language_calls, mem_guess_calls]
    simp
  · unfold script_calls language_calls guess_calls
    by_cases hs : script_tag = 0
    · rcases language with _ | _ | ⟨c, cs⟩ <;> simp [hs, List.filter]
    · rcases language with _ | _ | ⟨c, cs⟩ <;> simp [hs, List.filter]
  · intro hd
    rw [List.append_assoc, List.append_assoc, List.append_assoc]
    apply pair_sublist_append
    · simp [hd]
    · simp
  · intro hd
    rw [List.append_assoc, List.append_assoc, List.append_assoc]
    apply pair_sublist_append
    · simp [hd]
    · simp

/-- Witness of C9: direction 1 sets right-to-left before shaping, direction 2
sets left-to-right before shaping. -/
theorem hbhs_shape_sets_direction_witness :
    List.Sublist
      [HbCall.hb_buffer_set_direction 4 HbDirection.HB_DIRECTION_RTL, HbCall.hb_shape 3 4 none 0]
      (hbhs_shape (backend_shaping (some 4) sample_infos sample_positions) (some sample_handle)
        (some [97, 98, 99]) (some [104, 105]) 1147500129 1 (some filled_output) 5).trace ∧
    List.Sublist
      [HbCall.hb_buffer_set_direction 4 HbDirection.HB_DIRECTION_LTR, HbCall.hb_shape 3 4 none 0]
      (hbhs_shape (backend_shaping (some 4) sample_infos sample_positions) (some sample_handle)
        (some [97, 98, 99]) (some [104, 105]) 1147500129 2 (some filled_output) 5).trace :=
  ⟨(hbhs_shape_sets_direction (backend_shaping (some 4) sample_infos sample_positions)
      sample_handle 3 [97, 98, 99] (some [104, 105]) 1147500129 1 filled_output 5 4 rfl
      (by decide) rfl).2.2.1 rfl,
   (hbhs_shape_sets_direction (backend_shaping (some 4) sample_infos sample_positions)
      sample_handle 3 [97, 98, 99] (some [104, 105]) 1147500129 2 filled_output 5 4 rfl
      (by decide) rfl).2.2.2 (by decide)⟩

end HbHs
